import Mathlib

/-!
Verification development for the schema materialization engine of a
visual database-schema designer (file `src/app/services/sandbox.service.ts`).

The TypeScript service is shallowly embedded: strings are Lean `String`s
(ASCII inputs are assumed for `toUpperCase`, and JS UTF-16 code units are
reproduced explicitly for hashing), JS stable `Array.prototype.sort` is
modelled by `List.insertionSort` (which is stable for a non-strict
comparator), machine integers in the rolling hash are modelled by `Int`
with explicit reduction to 32-bit two's-complement, and the SQLite side
effects of the lifecycle manager and CRUD gateway are modelled by explicit
state passing with an oracle describing which statements the storage
engine rejects.
-/

/-! ## JS string primitives -/

/-- The double-quote character. -/
def dquote : Char := Char.ofNat 34

/-- The single-quote character. -/
def squote : Char := Char.ofNat 39

/-- The backslash character. -/
def backslash : Char := Char.ofNat 92

/-- Model of `String.prototype.toUpperCase` for ASCII strings. -/
def jsToUpper (s : String) : String :=
  String.mk (s.toList.map Char.toUpper)

/-- `isPrefixL pat l` is true when `pat` is a prefix of `l`. -/
def isPrefixL : List Char → List Char → Bool
  | [], _ => true
  | _ :: _, [] => false
  | p :: ps, c :: cs => p == c && isPrefixL ps cs

/-- `includesL l pat` is true when `pat` occurs contiguously in `l`. -/
def includesL : List Char → List Char → Bool
  | l, pat =>
    isPrefixL pat l ||
      match l with
      | [] => false
      | _ :: rest => includesL rest pat

/-- Model of `String.prototype.includes`. -/
def jsIncludes (s sub : String) : Bool :=
  includesL s.toList sub.toList

/-- Model of `String.prototype.startsWith` for a one-character pattern. -/
def jsStartsWith (s : String) (c : Char) : Bool :=
  match s.toList with
  | [] => false
  | x :: _ => x == c

/-- Model of `String.prototype.endsWith` for a one-character pattern. -/
def jsEndsWith (s : String) (c : Char) : Bool :=
  match s.toList.getLast? with
  | none => false
  | some x => x == c

/-- The UTF-16 code units of a character, as produced by `charCodeAt`. -/
def utf16Units (c : Char) : List Nat :=
  if c.toNat < 65536 then [c.toNat]
  else
    [55296 + (c.toNat - 65536) / 1024, 56320 + (c.toNat - 65536) % 1024]

/-- The UTF-16 code units of a string. -/
def utf16Codes (s : String) : List Nat :=
  (s.toList.map utf16Units).flatten

/-- Reduce an integer to 32-bit two's-complement, as JS `ToInt32`. -/
def toInt32 (n : Int) : Int :=
  let m := n.emod 4294967296
  if m < 2147483648 then m else m - 4294967296

/-- One step of the service's rolling hash:
`hash = ((hash << 5) - hash) + char; hash = hash & hash`. -/
def hashStep (h : Int) (code : Nat) : Int :=
  toInt32 (toInt32 (h * 32) - h + (code : Int))

/-- The for-loop of the rolling hash. The accumulator is matched on the
`Int` constructors so that kernel evaluation keeps it in literal form;
both branches perform the same `hashStep`. -/
def hashFold : List Nat → Int → Int
  | [], h => h
  | c :: cs, Int.ofNat m => hashFold cs (hashStep (Int.ofNat m) c)
  | c :: cs, Int.negSucc m => hashFold cs (hashStep (Int.negSucc m) c)

/-- The whole rolling hash of a string, starting from 0. -/
def jsHashOf (s : String) : Int :=
  hashFold (utf16Codes s) 0

/-- Model of JS `Number.prototype.toString(16)` for a 32-bit integer. -/
def intToHexJs (n : Int) : String :=
  if n < 0 then "-" ++ String.mk (Nat.toDigits 16 n.natAbs)
  else String.mk (Nat.toDigits 16 n.toNat)

/-! ## JSON serialization, as produced by `JSON.stringify` -/

/-- Hex digit character for a value below 16. -/
def hexDigit (n : Nat) : Char :=
  Nat.digitChar n

/-- Escape of one character inside a JSON string literal. -/
def escapeJsonChar (c : Char) : List Char :=
  if c == dquote then [backslash, dquote]
  else if c == backslash then [backslash, backslash]
  else if c == Char.ofNat 8 then [backslash, 'b']
  else if c == Char.ofNat 9 then [backslash, 't']
  else if c == Char.ofNat 10 then [backslash, 'n']
  else if c == Char.ofNat 12 then [backslash, 'f']
  else if c == Char.ofNat 13 then [backslash, 'r']
  else if c.toNat < 32 then
    [backslash, 'u', '0', '0', hexDigit (c.toNat / 16), hexDigit (c.toNat % 16)]
  else [c]

/-- A JSON string literal with its surrounding double quotes. -/
def jsonStr (s : String) : String :=
  String.mk (dquote :: (s.toList.map escapeJsonChar).flatten ++ [dquote])

/-- A JSON boolean literal. -/
def jsonBool (b : Bool) : String :=
  if b then "true" else "false"

/-- A JSON string-or-null value. -/
def jsonOptStr : Option String → String
  | none => "null"
  | some s => jsonStr s

/-- A JSON array from already-serialized members. -/
def jsonArr (l : List String) : String :=
  "[" ++ String.intercalate "," l ++ "]"

/-! ## Data model

Only the fields the engine reads are retained (the hash projections in
`calculateSchemaHash` keep exactly these fields). -/

/-- A logical table, as read by the engine: identity and display name. -/
structure Table where
  id : String
  name : String
  deriving DecidableEq, Repr

/-- A logical column, with the seven fields the engine reads. -/
structure Column where
  id : String
  tableId : String
  name : String
  type : String
  isPk : Bool
  isNullable : Bool
  defaultValue : Option String
  deriving DecidableEq, Repr

/-- A foreign-key relation, with the four endpoint fields the engine reads. -/
structure Relation where
  fromTableId : String
  fromColumnId : String
  toTableId : String
  toColumnId : String
  deriving DecidableEq, Repr

/-! ## Type lowering (`mapToSqliteType`) -/

/-- Embedding of `mapToSqliteType`: case-insensitive substring
classification of a logical type into a SQLite storage type. -/
def mapToSqliteType (sqlType : String) : String :=
  let t := jsToUpper sqlType
  if jsIncludes t "INT" then "INTEGER"
  else if jsIncludes t "CHAR" || jsIncludes t "TEXT" || jsIncludes t "UUID"
      || jsIncludes t "VARCHAR" then "TEXT"
  else if jsIncludes t "BOOL" then "INTEGER"
  else if jsIncludes t "DATE" || jsIncludes t "TIME" then "TEXT"
  else if jsIncludes t "FLOAT" || jsIncludes t "REAL" || jsIncludes t "DECIMAL"
      || jsIncludes t "DOUBLE" then "REAL"
  else "TEXT"

/-! ## Default-value lowering (the `DEFAULT` branch of `generateCreateTableSql`) -/

/-- The SQL expression the service emits for a `uuid()` default. -/
def uuidDefaultExpr : String :=
  " DEFAULT (lower(hex(randomblob(4))) || '-' || lower(hex(randomblob(2))) || '-4' || lower(hex(randomblob(2))) || '-' || substr('89ab',abs(random()) % 4 + 1, 1) || substr(lower(hex(randomblob(2))),2,3) || '-' || lower(hex(randomblob(6))))"

/-- Model of `val.replace(/'/g, "''")`. -/
def escapeSingleQuotes (s : String) : String :=
  String.mk (s.toList.foldr
    (fun c acc => if c == squote then squote :: squote :: acc else c :: acc) [])

/-- Embedding of the `DEFAULT` fragment that `generateCreateTableSql`
appends to a column line when the column's default value is truthy.
`colType` is the column's raw logical type and `dv` its raw default. -/
def defaultFragment (colType dv : String) : String :=
  if dv == "uuid()" then uuidDefaultExpr
  else if dv == "now()" then " DEFAULT (datetime('now'))"
  else if jsToUpper dv == "NULL" then " DEFAULT NULL"
  else
    let t := jsToUpper colType
    if (["INT", "BIGINT", "INTEGER", "BOOLEAN"].any fun p => jsIncludes t p) then
      if dv == "true" then " DEFAULT 1"
      else if dv == "false" then " DEFAULT 0"
      else " DEFAULT " ++ dv
    else if (["FLOAT", "DECIMAL", "REAL"].any fun p => jsIncludes t p) then
      " DEFAULT " ++ dv
    else
      let isQuoted := (jsStartsWith dv squote && jsEndsWith dv squote)
        || (jsStartsWith dv dquote && jsEndsWith dv dquote)
      " DEFAULT " ++
        (if isQuoted then dv
         else String.mk [squote] ++ escapeSingleQuotes dv ++ String.mk [squote])

/-- JS truthiness of the stored default value: `null`/`undefined` and the
empty string are falsy, every other string is truthy. -/
def truthyDefault : Option String → Bool
  | none => false
  | some s => !(s == "")

/-- Embedding of one column line of `generateCreateTableSql`. -/
def columnLine (col : Column) : String :=
  let base := String.mk [dquote] ++ col.name ++ String.mk [dquote] ++ " "
    ++ mapToSqliteType col.type
  let base := if col.isPk then base ++ " PRIMARY KEY" else base
  let base := if !col.isNullable then base ++ " NOT NULL" else base
  if truthyDefault col.defaultValue then
    base ++ defaultFragment col.type (col.defaultValue.getD "")
  else base

/-! ## Schema fingerprint (`calculateSchemaHash`) -/

/-- Executable lexicographic comparison of character lists by code
point, modelling the comparator `(a, b) => a.localeCompare(b)` on the
identifier strings the service sorts by (opaque ASCII identifiers, for
which `localeCompare` agrees with code-point order). -/
def leChars : List Char → List Char → Bool
  | [], _ => true
  | _ :: _, [] => false
  | a :: as, b :: bs =>
    if a.toNat < b.toNat then true
    else if b.toNat < a.toNat then false
    else leChars as bs

/-- Lexicographic comparison of strings by code point. -/
def strLe (a b : String) : Bool :=
  leChars a.toList b.toList

/-- JSON projection of a table, `{id, name}`, key order as in the source. -/
def tableJson (t : Table) : String :=
  "\x7b\"id\":" ++ jsonStr t.id ++ ",\"name\":" ++ jsonStr t.name ++ "\x7d"

/-- JSON projection of a column, with the seven projected fields in source
key order. -/
def columnJson (c : Column) : String :=
  "\x7b\"id\":" ++ jsonStr c.id
    ++ ",\"tableId\":" ++ jsonStr c.tableId
    ++ ",\"name\":" ++ jsonStr c.name
    ++ ",\"type\":" ++ jsonStr c.type
    ++ ",\"isPk\":" ++ jsonBool c.isPk
    ++ ",\"isNullable\":" ++ jsonBool c.isNullable
    ++ ",\"defaultValue\":" ++ jsonOptStr c.defaultValue ++ "\x7d"

/-- JSON projection of a relation, with the four endpoint fields in source
key order. -/
def relationJson (r : Relation) : String :=
  "\x7b\"fromTableId\":" ++ jsonStr r.fromTableId
    ++ ",\"fromColumnId\":" ++ jsonStr r.fromColumnId
    ++ ",\"toTableId\":" ++ jsonStr r.toTableId
    ++ ",\"toColumnId\":" ++ jsonStr r.toColumnId ++ "\x7d"

/-- The canonical textual form `calculateSchemaHash` serializes before
hashing: tables sorted by id, the diagram's columns sorted by id, and
relations sorted by `fromColumnId` (a stable sort, so relations sharing a
`fromColumnId` keep their input order). -/
def schemaStr (tablesL : List Table) (columnsL : List Column)
    (relationsL : List Relation) : String :=
  let tableColumns := columnsL.filter fun c =>
    tablesL.any fun t => t.id == c.tableId
  let sT := List.insertionSort (fun a b : Table => strLe a.id b.id = true) tablesL
  let sC := List.insertionSort (fun a b : Column => strLe a.id b.id = true) tableColumns
  let sR := List.insertionSort
    (fun a b : Relation => strLe a.fromColumnId b.fromColumnId = true) relationsL
  "\x7b\"tables\":" ++ jsonArr (sT.map tableJson)
    ++ ",\"columns\":" ++ jsonArr (sC.map columnJson)
    ++ ",\"relations\":" ++ jsonArr (sR.map relationJson) ++ "\x7d"

/-- Embedding of `calculateSchemaHash`: serialize the projected, sorted
schema and reduce it with the rolling hash, rendered in hexadecimal. -/
def calculateSchemaHash (tablesL : List Table) (columnsL : List Column)
    (relationsL : List Relation) : String :=
  intToHexJs (jsHashOf (schemaStr tablesL columnsL relationsL))

/-! ## Dependency sorter (`sortTablesByDependency`) -/

/-- The first-pass test of `sortTablesByDependency`: the table is a
relation target and has no foreign key to another referenced table. -/
def sortPass1Pred (relationList : List Relation) (t : Table) : Bool :=
  (relationList.map fun r => r.toTableId).contains t.id &&
    !(relationList.any fun r =>
      r.fromTableId == t.id &&
        (relationList.map fun r' => r'.toTableId).contains r.toTableId &&
        r.toTableId != t.id)

/-- Embedding of `sortTablesByDependency`: first the referenced tables
that have no outgoing FK to another referenced table, then every
remaining table in input order. -/
def sortTablesByDependency (tableList : List Table)
    (relationList : List Relation) : List Table :=
  let pass1 := tableList.filter (sortPass1Pred relationList)
  let addedIds := pass1.map (fun t => t.id)
  pass1 ++ tableList.filter fun t => !(addedIds.contains t.id)

/-- Position of the table with identity `tid` in a produced order. -/
def tablePos (l : List Table) (tid : String) : Nat :=
  l.findIdx fun t => t.id == tid

/-! ## DDL synthesizer (`generateCreateTableSql`) -/

/-- One `FOREIGN KEY` clause, given the three resolved entities. -/
def fkClause (fromCol : Column) (toTable : Table) (toCol : Column) : String :=
  "FOREIGN KEY (" ++ String.mk [dquote] ++ fromCol.name ++ String.mk [dquote]
    ++ ") REFERENCES " ++ String.mk [dquote] ++ toTable.name
    ++ String.mk [dquote] ++ "(" ++ String.mk [dquote] ++ toCol.name
    ++ String.mk [dquote] ++ ")"

/-- Embedding of the FK loop of `generateCreateTableSql`: for each
relation whose source table is this table, look up the source column,
target table and target column by identity; push a clause when all three
resolve, otherwise push nothing. -/
def fkLines (table : Table) (relationList : List Relation)
    (allTables : List Table) (allColumns : List Column) : List String :=
  (relationList.filter fun r => r.fromTableId == table.id).foldl
    (fun acc fk =>
      match allColumns.find? (fun c => c.id == fk.fromColumnId),
          allTables.find? (fun t => t.id == fk.toTableId),
          allColumns.find? (fun c => c.id == fk.toColumnId) with
      | some fromCol, some toTable, some toCol =>
        acc ++ [fkClause fromCol toTable toCol]
      | _, _, _ => acc)
    []

/-- Embedding of `generateCreateTableSql`: column lines in definition
order, then resolved FK clauses, joined inside a `CREATE TABLE`. -/
def generateCreateTableSql (table : Table) (cols : List Column)
    (relationList : List Relation) (allTables : List Table)
    (allColumns : List Column) : String :=
  let lines := cols.map columnLine ++ fkLines table relationList allTables allColumns
  "CREATE TABLE " ++ String.mk [dquote] ++ table.name ++ String.mk [dquote]
    ++ " (\n  " ++ String.intercalate ",\n  " lines ++ "\n);"

/-! ## Sandbox lifecycle (`initializeSandbox`)

The on-disk sandbox is modelled as `Option (List String)`: `none` when no
sandbox file exists, `some stmts` for a file holding the successfully
executed statements. The storage engine is an oracle mapping a statement
to `some errorMessage` when execution throws and `none` when it
succeeds. -/

/-- Result shape of the service's lifecycle and CRUD operations. -/
structure CrudResult where
  success : Bool
  error : Option String
  deriving DecidableEq, Repr

/-- Run statements in order against the oracle, returning either the list
of executed statements or the first error message thrown. -/
def runStmts (oracle : String → Option String) :
    List String → List String → Except String (List String)
  | done, [] => Except.ok done
  | done, s :: rest =>
    match oracle s with
    | some e => Except.error e
    | none => runStmts oracle (done ++ [s]) rest

/-- The statement sequence `initializeSandbox` executes: the metadata
table, the fingerprint insert, then one `CREATE TABLE` per table in
dependency order (each table receiving its own columns, with all of the
diagram's relations, tables and columns as resolution snapshots). -/
def rebuildStmts (tablesL : List Table) (columnsL : List Column)
    (relationsL : List Relation) : List String :=
  let tableColumns := columnsL.filter fun c =>
    tablesL.any fun t => t.id == c.tableId
  let sortedTables := sortTablesByDependency tablesL relationsL
  "CREATE TABLE _schema_hash (hash TEXT)"
    :: "INSERT INTO _schema_hash (hash) VALUES (?)"
    :: sortedTables.map fun t =>
      generateCreateTableSql t (tableColumns.filter fun c => c.tableId == t.id)
        relationsL tablesL tableColumns

/-- Embedding of `initializeSandbox`. When the diagram is missing the
file is untouched and a NotFound result is returned. Otherwise any
existing file is deleted, a fresh one is created, and the statements run
inside the try block; on the first failure the file is deleted again and
the error message is returned. -/
def initializeSandbox (oracle : String → Option String) (diagramFound : Bool)
    (tablesL : List Table) (columnsL : List Column) (relationsL : List Relation)
    (file : Option (List String)) : Option (List String) × CrudResult :=
  if !diagramFound then (file, ⟨false, some "Diagram not found"⟩)
  else
    match runStmts oracle [] (rebuildStmts tablesL columnsL relationsL) with
    | Except.ok executed => (some executed, ⟨true, none⟩)
    | Except.error e => (none, ⟨false, some e⟩)

/-! ## Generic CRUD gateway

The sandbox's data is modelled as named tables with a column list and
rows given as association lists from column name to a bound scalar value
(bound parameters are opaque to statement synthesis, so scalars are
modelled as strings). `none` for the file models an absent sandbox: every
operation then returns the NotInitialized error without touching any
state. -/

/-- One physical table of the sandbox. -/
structure TableData where
  columns : List String
  rows : List (List (String × String))
  deriving DecidableEq, Repr

/-- The initialized sandbox database. -/
structure Db where
  tables : List (String × TableData)
  deriving DecidableEq, Repr

/-- Look up a cell of a row by column name. -/
def rowLookup (row : List (String × String)) (c : String) : Option String :=
  (row.find? fun kv => kv.1 == c).map fun kv => kv.2

/-- Apply a parameterized `SET` clause to one row. -/
def applySets (data : List (String × String)) (row : List (String × String)) :
    List (String × String) :=
  row.map fun kv =>
    match data.find? fun d => d.1 == kv.1 with
    | some d => (kv.1, d.2)
    | none => kv

/-- `UPDATE` of one physical table: rows whose primary-key cell equals
the bound value receive the `SET` clause; the statement's affected-row
count is not observed. -/
def updateTd (pkCol pkVal : String) (data : List (String × String))
    (td : TableData) : TableData :=
  ⟨td.columns, td.rows.map fun row =>
    if rowLookup row pkCol == some pkVal then applySets data row else row⟩

/-- `DELETE` of one physical table by primary-key equality. -/
def deleteTd (pkCol pkVal : String) (td : TableData) : TableData :=
  ⟨td.columns, td.rows.filter fun row => !(rowLookup row pkCol == some pkVal)⟩

/-- The NotInitialized result every CRUD operation returns when no
sandbox file exists. -/
def notInitialized : CrudResult := ⟨false, some "Sandbox not initialized"⟩

/-- Embedding of `getRows`: absent sandbox fails with NotInitialized;
selecting from a missing table is a storage-engine error. -/
def getRowsOp (file : Option Db) (tableName : String) :
    Option Db × CrudResult :=
  match file with
  | none => (none, notInitialized)
  | some db =>
    match db.tables.find? fun p => p.1 == tableName with
    | none => (some db, ⟨false, some ("no such table: " ++ tableName)⟩)
    | some _ => (some db, ⟨true, none⟩)

/-- Embedding of `insertRow`: absent sandbox fails with NotInitialized;
otherwise the row is appended when the table and every named column
exist, and the storage engine's error is reported otherwise. -/
def insertRowOp (file : Option Db) (tableName : String)
    (data : List (String × String)) : Option Db × CrudResult :=
  match file with
  | none => (none, notInitialized)
  | some db =>
    match db.tables.find? fun p => p.1 == tableName with
    | none => (some db, ⟨false, some ("no such table: " ++ tableName)⟩)
    | some found =>
      if data.all fun kv => found.2.columns.contains kv.1 then
        (some ⟨db.tables.map fun p =>
          if p.1 == tableName then (p.1, ⟨p.2.columns, p.2.rows ++ [data]⟩)
          else p⟩, ⟨true, none⟩)
      else (some db, ⟨false, some "table has no column named ..."⟩)

/-- Embedding of `updateRow`: absent sandbox fails with NotInitialized.
An empty field map builds `UPDATE "t" SET  WHERE "pk" = ?` with an empty
`SET` clause, which the storage engine rejects at prepare time with a
syntax error (parsing precedes name resolution, so this fires before any
table lookup). Otherwise, with a valid table, `SET` columns and
primary-key column, the update is applied and success is reported
without consulting the affected-row count. -/
def updateRowOp (file : Option Db) (tableName pkCol pkVal : String)
    (data : List (String × String)) : Option Db × CrudResult :=
  match file with
  | none => (none, notInitialized)
  | some db =>
    if data.isEmpty then
      (some db, ⟨false, some "near \"WHERE\": syntax error"⟩)
    else
      match db.tables.find? fun p => p.1 == tableName with
      | none => (some db, ⟨false, some ("no such table: " ++ tableName)⟩)
      | some found =>
        if (data.all fun kv => found.2.columns.contains kv.1)
            && found.2.columns.contains pkCol then
          (some ⟨db.tables.map fun p =>
            if p.1 == tableName then (p.1, updateTd pkCol pkVal data p.2)
            else p⟩, ⟨true, none⟩)
        else (some db, ⟨false, some "no such column"⟩)

/-- Embedding of `deleteRow`: absent sandbox fails with NotInitialized;
with a valid table and primary-key column the delete is applied and
success is reported without consulting the affected-row count. -/
def deleteRowOp (file : Option Db) (tableName pkCol pkVal : String) :
    Option Db × CrudResult :=
  match file with
  | none => (none, notInitialized)
  | some db =>
    match db.tables.find? fun p => p.1 == tableName with
    | none => (some db, ⟨false, some ("no such table: " ++ tableName)⟩)
    | some found =>
      if found.2.columns.contains pkCol then
        (some ⟨db.tables.map fun p =>
          if p.1 == tableName then (p.1, deleteTd pkCol pkVal p.2)
          else p⟩, ⟨true, none⟩)
      else (some db, ⟨false, some "no such column"⟩)

/-- Embedding of `getTableInfo`: absent sandbox fails with
NotInitialized; `PRAGMA table_info` never throws. -/
def getTableInfoOp (file : Option Db) (tableName : String) :
    Option Db × CrudResult :=
  match file with
  | none => (none, notInitialized)
  | some db => (some db, ⟨true, none⟩)

/-! ## CRUD statement texts (identifier interpolation)

The statement texts built by `insertRow`, `updateRow` and `deleteRow`
are modelled over `List Char` so the structural effect of interpolated
identifiers can be analyzed. -/

/-- An interpolated identifier as the source writes it: wrapped in double
quotes with no validation and no escaping. -/
def quoteIdentChars (s : List Char) : List Char :=
  dquote :: (s ++ [dquote])

/-- `Array.prototype.join(", ")`. -/
def joinCommaChars (l : List (List Char)) : List Char :=
  List.intercalate (", ".toList) l

/-- The `INSERT` statement text of `insertRow` (non-empty field map). -/
def insertSqlChars (t : List Char) (ks : List (List Char)) : List Char :=
  "INSERT INTO ".toList ++ quoteIdentChars t ++ " (".toList
    ++ joinCommaChars (ks.map quoteIdentChars) ++ ") VALUES (".toList
    ++ joinCommaChars (ks.map fun _ => ['?']) ++ [')']

/-- The `UPDATE` statement text of `updateRow`. -/
def updateSqlChars (t pk : List Char) (ks : List (List Char)) : List Char :=
  "UPDATE ".toList ++ quoteIdentChars t ++ " SET ".toList
    ++ joinCommaChars (ks.map fun k => quoteIdentChars k ++ " = ?".toList)
    ++ " WHERE ".toList ++ quoteIdentChars pk ++ " = ?".toList

/-- The `DELETE` statement text of `deleteRow`. -/
def deleteSqlChars (t pk : List Char) : List Char :=
  "DELETE FROM ".toList ++ quoteIdentChars t ++ " WHERE ".toList
    ++ quoteIdentChars pk ++ " = ?".toList

/-- Characters up to the next unescaped double quote: how a SQL lexer
delimits the quoted identifier. -/
def takeUntilQuote : List Char → Option (List Char)
  | [] => none
  | c :: rest =>
    if c == dquote then some []
    else (takeUntilQuote rest).map fun l => c :: l

/-- The first double-quoted token of a statement text: the identifier the
storage engine will actually see in table position. -/
def extractQuoted : List Char → Option (List Char)
  | [] => none
  | c :: rest =>
    if c == dquote then takeUntilQuote rest
    else extractQuoted rest

/-! ## Spec-side definitions

These definitions follow the wording of the specification's claims (not
the source) and are compared against the embedded source functions. -/

/-- Default lowering as the claim words it: rules tried in order, with
the numeric/boolean and floating cases decided by the LOWERED type
(`mapToSqliteType`), and the remaining values quoted with single-quote
doubling unless already quoted. -/
def claimDefaultFragment (colType dv : String) : String :=
  if dv == "uuid()" then uuidDefaultExpr
  else if dv == "now()" then " DEFAULT (datetime('now'))"
  else if jsToUpper dv == "NULL" then " DEFAULT NULL"
  else if mapToSqliteType colType == "INTEGER" then
    if dv == "true" then " DEFAULT 1"
    else if dv == "false" then " DEFAULT 0"
    else " DEFAULT " ++ dv
  else if mapToSqliteType colType == "REAL" then " DEFAULT " ++ dv
  else
    if (jsStartsWith dv squote && jsEndsWith dv squote)
        || (jsStartsWith dv dquote && jsEndsWith dv dquote) then
      " DEFAULT " ++ dv
    else
      " DEFAULT " ++ String.mk [squote] ++ escapeSingleQuotes dv
        ++ String.mk [squote]

/-- Default lowering as the amended claim words it: identical rules, but
the numeric/boolean case fires when the RAW uppercased type contains
`INT`, `BIGINT`, `INTEGER` or `BOOLEAN`, and the floating case when it
contains `FLOAT`, `DECIMAL` or `REAL`. -/
def amendedDefaultFragment (colType dv : String) : String :=
  if dv == "uuid()" then uuidDefaultExpr
  else if dv == "now()" then " DEFAULT (datetime('now'))"
  else if jsToUpper dv == "NULL" then " DEFAULT NULL"
  else if (["INT", "BIGINT", "INTEGER", "BOOLEAN"].any fun p =>
      jsIncludes (jsToUpper colType) p) then
    if dv == "true" then " DEFAULT 1"
    else if dv == "false" then " DEFAULT 0"
    else " DEFAULT " ++ dv
  else if (["FLOAT", "DECIMAL", "REAL"].any fun p =>
      jsIncludes (jsToUpper colType) p) then
    " DEFAULT " ++ dv
  else
    if (jsStartsWith dv squote && jsEndsWith dv squote)
        || (jsStartsWith dv dquote && jsEndsWith dv dquote) then
      " DEFAULT " ++ dv
    else
      " DEFAULT " ++ String.mk [squote] ++ escapeSingleQuotes dv
        ++ String.mk [squote]

/-- Resolution of one relation into its FK clause, as the claim words it:
the clause exists exactly when the source column, target table and target
column all resolve by identity lookup. -/
def resolveFk (allTables : List Table) (allColumns : List Column)
    (r : Relation) : Option String :=
  match allColumns.find? (fun c => c.id == r.fromColumnId),
      allTables.find? (fun t => t.id == r.toTableId),
      allColumns.find? (fun c => c.id == r.toColumnId) with
  | some fromCol, some toTable, some toCol =>
    some (fkClause fromCol toTable toCol)
  | _, _, _ => none

/-- A reference chain of three hops exists: three relations linked
target-to-source twice. -/
def hasChain3 (relationList : List Relation) : Bool :=
  relationList.any fun r1 =>
    relationList.any fun r2 =>
      relationList.any fun r3 =>
        r1.toTableId == r2.fromTableId && r2.toTableId == r3.fromTableId

/-- Bounded reachability along foreign-key edges. -/
def reachesWithin (relationList : List Relation) :
    Nat → String → String → Bool
  | 0, _, _ => false
  | fuel + 1, a, b =>
    relationList.any fun r =>
      r.fromTableId == a &&
        (r.toTableId == b || reachesWithin relationList fuel r.toTableId b)

/-- A reference cycle exists: some relation's source is reachable from
its target (self-references included). -/
def hasCycle (relationList : List Relation) : Bool :=
  relationList.any fun r =>
    r.fromTableId == r.toTableId ||
      reachesWithin relationList relationList.length r.toTableId r.fromTableId

/-! ## Order properties of the comparator -/

/-- The comparator is total. -/
theorem leChars_total : ∀ a b : List Char, leChars a b = true ∨ leChars b a = true := by
  intro a
  induction a with
  | nil => intro b; left; rfl
  | cons x xs ih =>
    intro b
    cases b with
    | nil => right; rfl
    | cons y ys =>
      by_cases h1 : x.toNat < y.toNat
      · left; simp [leChars, h1]
      · by_cases h2 : y.toNat < x.toNat
        · right; simp [leChars, h2]
        · rcases ih ys with h | h
          · left; simp [leChars, h1, h2, h]
          · right; simp [leChars, h1, h2, h]

/-- The comparator is transitive. -/
theorem leChars_trans : ∀ a b c : List Char,
    leChars a b = true → leChars b c = true → leChars a c = true := by
  intro a
  induction a with
  | nil => intro b c _ _; rfl
  | cons x xs ih =>
    intro b c hab hbc
    cases b with
    | nil => simp [leChars] at hab
    | cons y ys =>
      cases c with
      | nil => simp [leChars] at hbc
      | cons z zs =>
        simp only [leChars] at hab hbc ⊢
        split_ifs at hab hbc ⊢ with h1 h2 h3 h4 h5 h6 <;>
          first
            | rfl
            | omega
            | exact ih ys zs hab hbc

/-- The comparator is antisymmetric. -/
theorem leChars_antisymm : ∀ a b : List Char,
    leChars a b = true → leChars b a = true → a = b := by
  intro a
  induction a with
  | nil =>
    intro b _ hba
    cases b with
    | nil => rfl
    | cons y ys => simp [leChars] at hba
  | cons x xs ih =>
    intro b hab hba
    cases b with
    | nil => simp [leChars] at hab
    | cons y ys =>
      simp only [leChars] at hab hba
      split_ifs at hab hba with h1 h2 <;> try omega
      have hn : x.toNat = y.toNat := by omega
      have hxy : x = y := Char.ext (UInt32.toNat.inj hn)
      rw [hxy, ih ys hab hba]

/-- Totality, at the string level. -/
theorem strLe_total (a b : String) : strLe a b = true ∨ strLe b a = true :=
  leChars_total a.toList b.toList

/-- Transitivity, at the string level. -/
theorem strLe_trans {a b c : String}
    (hab : strLe a b = true) (hbc : strLe b c = true) : strLe a c = true :=
  leChars_trans a.toList b.toList c.toList hab hbc

/-- Antisymmetry, at the string level. -/
theorem strLe_antisymm {a b : String}
    (hab : strLe a b = true) (hba : strLe b a = true) : a = b := by
  have h := leChars_antisymm a.toList b.toList hab hba
  cases a; cases b
  exact congrArg String.mk h

/-! ## Canonicalization of the stable sorts -/

/-- `List.any` is invariant under permutation of the list. -/
theorem perm_any {α : Type} {l₁ l₂ : List α} (h : l₁.Perm l₂)
    (p : α → Bool) : l₁.any p = l₂.any p := by
  have hiff : (∃ x, x ∈ l₁ ∧ p x = true) ↔ (∃ x, x ∈ l₂ ∧ p x = true) := by
    constructor
    · rintro ⟨x, hm, hp⟩; exact ⟨x, h.mem_iff.mp hm, hp⟩
    · rintro ⟨x, hm, hp⟩; exact ⟨x, h.mem_iff.mpr hm, hp⟩
  rw [List.any_eq, List.any_eq]
  exact decide_eq_decide.mpr hiff

/-- Two permuted lists whose sort keys are pairwise distinct have the
same stable sort: the sorted output is independent of input order. -/
theorem insertionSort_key_eq {α : Type} (key : α → String) (l₁ l₂ : List α)
    (hp : l₁.Perm l₂) (hn : (l₁.map key).Nodup) :
    List.insertionSort (fun a b => strLe (key a) (key b) = true) l₁ =
      List.insertionSort (fun a b => strLe (key a) (key b) = true) l₂ := by
  set r := fun a b : α => strLe (key a) (key b) = true with hr
  haveI : IsTotal α r := ⟨fun a b => strLe_total (key a) (key b)⟩
  haveI : IsTrans α r := ⟨fun a b c hab hbc => strLe_trans hab hbc⟩
  have hperm : (List.insertionSort r l₁).Perm (List.insertionSort r l₂) :=
    ((List.perm_insertionSort r l₁).trans hp).trans
      (List.perm_insertionSort r l₂).symm
  have hs₁ : (List.insertionSort r l₁).Sorted r := List.sorted_insertionSort r l₁
  have hs₂ : (List.insertionSort r l₂).Sorted r := List.sorted_insertionSort r l₂
  have hn₁ : ((List.insertionSort r l₁).map key).Nodup :=
    (((List.perm_insertionSort r l₁).map key).nodup_iff).mpr hn
  have hn₂ : ((List.insertionSort r l₂).map key).Nodup :=
    (((List.perm_insertionSort r l₂).map key).nodup_iff).mpr
      ((hp.map key).nodup_iff.mp hn)
  have hne₁ : (List.insertionSort r l₁).Pairwise fun a b => key a ≠ key b :=
    List.pairwise_map.mp hn₁
  have hne₂ : (List.insertionSort r l₂).Pairwise fun a b => key a ≠ key b :=
    List.pairwise_map.mp hn₂
  have hstrict₁ : (List.insertionSort r l₁).Pairwise
      fun a b => r a b ∧ key a ≠ key b := hs₁.and hne₁
  have hstrict₂ : (List.insertionSort r l₂).Pairwise
      fun a b => r a b ∧ key a ≠ key b := hs₂.and hne₂
  haveI : IsAntisymm α fun a b => r a b ∧ key a ≠ key b :=
    ⟨fun a b h1 h2 => absurd (strLe_antisymm h1.1 h2.1) h1.2⟩
  exact List.eq_of_perm_of_sorted hperm hstrict₁ hstrict₂

/-! ## C1: fingerprint permutation invariance -/

/-- Amended C1. For tables with pairwise-distinct identities, columns
with pairwise-distinct identities, and relations with pairwise-distinct
source-column identities, the schema fingerprint is invariant under any
permutation of the three input sequences. (The distinct `fromColumnId`
hypothesis is forced: the stable sort orders relations sharing a source
column by input position, see the counterexample.) -/
theorem calculateSchemaHash_perm_invariant_of_distinct_keys
    (T T' : List Table) (C C' : List Column) (R R' : List Relation)
    (hT : T.Perm T') (hC : C.Perm C') (hR : R.Perm R')
    (hTid : (T.map Table.id).Nodup) (hCid : (C.map Column.id).Nodup)
    (hRkey : (R.map Relation.fromColumnId).Nodup) :
    calculateSchemaHash T C R = calculateSchemaHash T' C' R' := by
  have hTs := insertionSort_key_eq Table.id T T' hT hTid
  have hRs := insertionSort_key_eq Relation.fromColumnId R R' hR hRkey
  have hfun : ∀ c : Column,
      (T.any fun t => t.id == c.tableId) = (T'.any fun t => t.id == c.tableId) :=
    fun c => perm_any hT _
  have hfiltEq :
      (C'.filter fun c => T.any fun t => t.id == c.tableId) =
        (C'.filter fun c => T'.any fun t => t.id == c.tableId) :=
    List.filter_congr fun c _ => hfun c
  have hfperm :
      (C.filter fun c => T.any fun t => t.id == c.tableId).Perm
        (C'.filter fun c => T'.any fun t => t.id == c.tableId) := by
    have h1 := hC.filter fun c => T.any fun t => t.id == c.tableId
    rwa [hfiltEq] at h1
  have hfnodup :
      ((C.filter fun c => T.any fun t => t.id == c.tableId).map Column.id).Nodup :=
    hCid.sublist ((List.filter_sublist C).map Column.id)
  have hCs := insertionSort_key_eq Column.id _ _ hfperm hfnodup
  simp only [calculateSchemaHash, schemaStr]
  rw [hTs, hRs, hCs]

/-- Witness for amended C1 at a concrete two-table reordering. -/
theorem calculateSchemaHash_perm_invariant_witness :
    calculateSchemaHash [⟨"t1", "users"⟩, ⟨"t2", "posts"⟩]
        [⟨"c1", "t1", "id", "INT", true, false, none⟩]
        [⟨"t2", "c9", "t1", "c1"⟩] =
      calculateSchemaHash [⟨"t2", "posts"⟩, ⟨"t1", "users"⟩]
        [⟨"c1", "t1", "id", "INT", true, false, none⟩]
        [⟨"t2", "c9", "t1", "c1"⟩] :=
  calculateSchemaHash_perm_invariant_of_distinct_keys _ _ _ _ _ _
    (List.Perm.swap _ _ _) (List.Perm.refl _) (List.Perm.refl _)
    (by decide) (by decide) (by decide)

/-- Counterexample to C1 as stated: two distinct relations sharing a
`fromColumnId` are kept in input order by the stable sort, so swapping
them is a permutation of the same relations that changes the
fingerprint. -/
theorem calculateSchemaHash_shared_fromColumnId_counterexample :
    List.Perm [Relation.mk "a" "c1" "b" "x", Relation.mk "a" "c1" "b" "y"]
        [Relation.mk "a" "c1" "b" "y", Relation.mk "a" "c1" "b" "x"] ∧
      calculateSchemaHash [⟨"t1", "users"⟩] []
          [Relation.mk "a" "c1" "b" "x", Relation.mk "a" "c1" "b" "y"] ≠
        calculateSchemaHash [⟨"t1", "users"⟩] []
          [Relation.mk "a" "c1" "b" "y", Relation.mk "a" "c1" "b" "x"] :=
  ⟨List.Perm.swap _ _ _, by decide⟩

/-! ## C2: default-value lowering rules -/

/-- Counterexample to C2 as stated: the source selects the numeric/float
branches from the RAW uppercased type, not the lowered type. On a `BOOL`
column (lowered `INTEGER`) the raw default `true` is quoted instead of
lowered to `1`, and on a `DOUBLE` column (lowered `REAL`) the raw default
`2.5` is quoted instead of emitted unquoted. -/
theorem defaultFragment_lowered_type_counterexample :
    mapToSqliteType "BOOL" = "INTEGER" ∧
      defaultFragment "BOOL" "true" = " DEFAULT 'true'" ∧
      claimDefaultFragment "BOOL" "true" = " DEFAULT 1" ∧
      mapToSqliteType "DOUBLE" = "REAL" ∧
      defaultFragment "DOUBLE" "2.5" = " DEFAULT '2.5'" ∧
      claimDefaultFragment "DOUBLE" "2.5" = " DEFAULT 2.5" := by
  refine ⟨by decide, by decide, by decide, by decide, by decide, by decide⟩

/-- Amended C2: for every column with a non-empty default value, the
synthesized `DEFAULT` fragment follows the claim's rule order with the
numeric/boolean case selected when the RAW uppercased type contains
`INT`, `BIGINT`, `INTEGER` or `BOOLEAN`, and the floating case when it
contains `FLOAT`, `DECIMAL` or `REAL`. -/
theorem defaultFragment_matches_amended_rules (colType dv : String)
    (hdv : dv ≠ "") :
    defaultFragment colType dv = amendedDefaultFragment colType dv := by
  simp only [defaultFragment, amendedDefaultFragment]
  split_ifs <;> simp [String.append_assoc]

/-- Witness for amended C2 at a `BOOLEAN` column with default `true`. -/
theorem defaultFragment_matches_amended_rules_witness :
    defaultFragment "BOOLEAN" "true" = amendedDefaultFragment "BOOLEAN" "true" :=
  defaultFragment_matches_amended_rules "BOOLEAN" "true" (by decide)

/-! ## C3: dependency-sorter ordering -/

/-- If some element of the first part satisfies the predicate, the found
index lies inside the first part. -/
theorem findIdx_append_of_exists {α : Type} (p : α → Bool) :
    ∀ (l1 l2 : List α), (∃ x ∈ l1, p x = true) →
      (l1 ++ l2).findIdx p < l1.length := by
  intro l1
  induction l1 with
  | nil => intro l2 h; rcases h with ⟨x, hx, _⟩; cases hx
  | cons a l ih =>
    intro l2 h
    cases ha : p a with
    | true => simp [List.findIdx_cons, ha]
    | false =>
      rcases h with ⟨y, hy, hpy⟩
      rcases List.mem_cons.mp hy with rfl | hy'
      · rw [ha] at hpy; cases hpy
      · simp only [List.cons_append, List.findIdx_cons, ha, cond_false,
          List.length_cons]
        exact Nat.succ_lt_succ (ih l2 ⟨y, hy', hpy⟩)

/-- If no element of the first part satisfies the predicate, the search
continues past it. -/
theorem findIdx_append_of_forall {α : Type} (p : α → Bool) :
    ∀ (l1 l2 : List α), (∀ x ∈ l1, p x = false) →
      (l1 ++ l2).findIdx p = l1.length + l2.findIdx p := by
  intro l1
  induction l1 with
  | nil => intro l2 _; simp
  | cons a l ih =>
    intro l2 h
    have ha : p a = false := h a (List.mem_cons_self a l)
    simp only [List.cons_append, List.findIdx_cons, ha, cond_false,
      List.length_cons]
    rw [ih l2 fun x hx => h x (List.mem_cons_of_mem a hx)]
    omega

/-- `List.contains` answers membership under a lawful `BEq`. -/
theorem contains_iff_mem {α : Type} [BEq α] [LawfulBEq α]
    {l : List α} {a : α} : l.contains a = true ↔ a ∈ l :=
  List.elem_iff

/-- Amended C3. For every foreign-key graph whose reference chains are at
most one hop — no relation's target table is also some relation's source
table, which in particular excludes cycles — the dependency sorter places
every relation's target table at or before the position of its source
table, provided every relation target occurs among the tables. The
two-hop bound of the claim as stated is not enough; see the
counterexample. -/
theorem sortTablesByDependency_one_hop_order
    (TL : List Table) (RL : List Relation)
    (hto : ∀ r ∈ RL, ∃ t ∈ TL, t.id = r.toTableId)
    (hone : ∀ r1 ∈ RL, ∀ r2 ∈ RL, r2.fromTableId ≠ r1.toTableId) :
    ∀ r ∈ RL, tablePos (sortTablesByDependency TL RL) r.toTableId ≤
      tablePos (sortTablesByDependency TL RL) r.fromTableId := by
  intro r hr
  have hsplit : sortTablesByDependency TL RL =
      TL.filter (sortPass1Pred RL) ++
        (TL.filter fun t =>
          !(((TL.filter (sortPass1Pred RL)).map fun t' => t'.id).contains t.id)) :=
    rfl
  obtain ⟨B, hBmem, hBid⟩ := hto r hr
  have hPB : sortPass1Pred RL B = true := by
    rw [sortPass1Pred, Bool.and_eq_true]
    constructor
    · exact contains_iff_mem.mpr (hBid ▸ List.mem_map_of_mem _ hr)
    · rw [Bool.not_eq_true']
      rw [List.any_eq_false]
      intro r' hr'
      have hne : r'.fromTableId ≠ B.id := by
        rw [hBid]; exact hone r hr r' hr'
      simp [beq_eq_false_iff_ne.mpr hne]
  have hnoA : ∀ x ∈ TL.filter (sortPass1Pred RL),
      (x.id == r.fromTableId) = false := by
    intro x hx
    have hP := (List.mem_filter.mp hx).2
    rw [sortPass1Pred, Bool.and_eq_true] at hP
    obtain ⟨hc, _⟩ := hP
    obtain ⟨r1, hr1, hr1to⟩ := List.mem_map.mp (contains_iff_mem.mp hc)
    rw [beq_eq_false_iff_ne]
    intro heq
    exact hone r1 hr1 r hr (heq ▸ hr1to).symm
  have h1 :
      (TL.filter (sortPass1Pred RL) ++
          (TL.filter fun t =>
            !(((TL.filter (sortPass1Pred RL)).map fun t' => t'.id).contains
              t.id))).findIdx (fun t => t.id == r.toTableId) <
        (TL.filter (sortPass1Pred RL)).length :=
    findIdx_append_of_exists _ _ _
      ⟨B, List.mem_filter.mpr ⟨hBmem, hPB⟩, by rw [hBid]; exact beq_self_eq_true _⟩
  have h2 :
      (TL.filter (sortPass1Pred RL) ++
          (TL.filter fun t =>
            !(((TL.filter (sortPass1Pred RL)).map fun t' => t'.id).contains
              t.id))).findIdx (fun t => t.id == r.fromTableId) =
        (TL.filter (sortPass1Pred RL)).length +
          (TL.filter fun t =>
            !(((TL.filter (sortPass1Pred RL)).map fun t' => t'.id).contains
              t.id)).findIdx (fun t => t.id == r.fromTableId) :=
    findIdx_append_of_forall _ _ _ hnoA
  rw [tablePos, tablePos, hsplit]
  omega

/-- The three tables of the C3 counterexample. -/
def cexTables : List Table :=
  [⟨"A", "tblA"⟩, ⟨"B", "tblB"⟩, ⟨"C", "tblC"⟩]

/-- The two relations of the C3 counterexample: the two-hop acyclic
chain `A → B → C`. -/
def cexRelations : List Relation :=
  [⟨"A", "ca", "B", "cb"⟩, ⟨"B", "cb2", "C", "cc"⟩]

/-- Counterexample to C3 as stated: the chain `A → B → C` has exactly two
hops and no cycle, all relation endpoints are present, the table ids are
distinct — yet the sorter produces `[C, A, B]`, placing target `B` after
source `A` for the relation `A → B`. -/
theorem sortTablesByDependency_two_hop_counterexample :
    hasChain3 cexRelations = false ∧
      hasCycle cexRelations = false ∧
      (cexTables.map Table.id).Nodup ∧
      (∀ r ∈ cexRelations, ∃ t ∈ cexTables, t.id = r.toTableId) ∧
      (∀ r ∈ cexRelations, ∃ t ∈ cexTables, t.id = r.fromTableId) ∧
      ∃ r ∈ cexRelations,
        ¬(tablePos (sortTablesByDependency cexTables cexRelations) r.toTableId ≤
          tablePos (sortTablesByDependency cexTables cexRelations) r.fromTableId) := by
  decide

/-- Witness for amended C3 at a one-hop graph `a → b`. -/
theorem sortTablesByDependency_one_hop_order_witness :
    tablePos (sortTablesByDependency [⟨"b", "tblB"⟩, ⟨"a", "tblA"⟩]
        [Relation.mk "a" "ca" "b" "cb"]) (Relation.mk "a" "ca" "b" "cb").toTableId ≤
      tablePos (sortTablesByDependency [⟨"b", "tblB"⟩, ⟨"a", "tblA"⟩]
        [Relation.mk "a" "ca" "b" "cb"]) (Relation.mk "a" "ca" "b" "cb").fromTableId :=
  sortTablesByDependency_one_hop_order _ _ (by decide) (by decide)
    (Relation.mk "a" "ca" "b" "cb") (by decide)

/-! ## C4: rebuild failure rolls back to Absent -/

/-- C4. Whenever some statement of the rebuild sequence fails, the
returned state has no sandbox file and the result is unsuccessful,
carrying the storage engine's error message. -/
theorem initializeSandbox_failure_leaves_absent
    (oracle : String → Option String) (T : List Table) (C : List Column)
    (R : List Relation) (file : Option (List String)) (e : String)
    (hfail : runStmts oracle [] (rebuildStmts T C R) = Except.error e) :
    initializeSandbox oracle true T C R file = (none, ⟨false, some e⟩) := by
  simp [initializeSandbox, hfail]

/-- Witness for C4: the metadata DDL fails on a pre-existing sandbox,
and the file is gone afterwards with the message reported. -/
theorem initializeSandbox_failure_leaves_absent_witness :
    initializeSandbox
        (fun s => if s == "CREATE TABLE _schema_hash (hash TEXT)"
          then some "disk full" else none)
        true [] [] [] (some ["CREATE TABLE _schema_hash (hash TEXT)"]) =
      (none, ⟨false, some "disk full"⟩) :=
  initializeSandbox_failure_leaves_absent _ _ _ _ _ _ rfl

/-! ## C8: CRUD on an absent sandbox -/

/-- C8. With no sandbox file, every CRUD operation returns the
NotInitialized error and leaves the (absent) state untouched: no
database work is performed. -/
theorem crud_absent_sandbox_not_initialized
    (tableName pkCol pkVal : String) (data : List (String × String)) :
    getRowsOp none tableName = (none, notInitialized) ∧
      insertRowOp none tableName data = (none, notInitialized) ∧
      updateRowOp none tableName pkCol pkVal data = (none, notInitialized) ∧
      deleteRowOp none tableName pkCol pkVal = (none, notInitialized) ∧
      getTableInfoOp none tableName = (none, notInitialized) :=
  ⟨rfl, rfl, rfl, rfl, rfl⟩

/-! ## C9: zero-match update and delete report success -/

/-- A map whose function fixes every member is the identity. -/
theorem map_self {α : Type} (l : List α) (f : α → α)
    (h : ∀ a ∈ l, f a = a) : l.map f = l := by
  induction l with
  | nil => rfl
  | cons x xs ih =>
    simp [h x (List.mem_cons_self x xs),
      ih fun a ha => h a (List.mem_cons_of_mem x ha)]

/-- A filter whose predicate accepts every member is the identity. -/
theorem filter_self {α : Type} (l : List α) (p : α → Bool)
    (h : ∀ a ∈ l, p a = true) : l.filter p = l := by
  induction l with
  | nil => rfl
  | cons x xs ih =>
    simp [List.filter_cons, h x (List.mem_cons_self x xs),
      ih fun a ha => h a (List.mem_cons_of_mem x ha)]

/-- C9. On an existing sandbox, when the statement raises no
storage-engine error — the field map is non-empty (an empty map makes
the source's `SET` clause a syntax error), the table exists and the
named columns are valid — and no row carries the given primary-key
value, `updateRow` and `deleteRow` leave every table unchanged and
still report plain success — indistinguishable from an update or
delete that matched a row. -/
theorem update_delete_zero_match_reports_success
    (db : Db) (tableName pkCol pkVal : String)
    (data : List (String × String)) (td : TableData)
    (hdata : data ≠ [])
    (hfind : db.tables.find? (fun p => p.1 == tableName) = some (tableName, td))
    (hcols : (data.all fun kv => td.columns.contains kv.1) = true)
    (hpk : td.columns.contains pkCol = true)
    (hnomatch : ∀ p ∈ db.tables, p.1 = tableName →
      ∀ row ∈ p.2.rows, rowLookup row pkCol ≠ some pkVal) :
    updateRowOp (some db) tableName pkCol pkVal data = (some db, ⟨true, none⟩) ∧
      deleteRowOp (some db) tableName pkCol pkVal = (some db, ⟨true, none⟩) := by
  have hfix : ∀ p ∈ db.tables, p.1 = tableName →
      (∀ row ∈ p.2.rows,
        (rowLookup row pkCol == some pkVal) = false) := by
    intro p hp hpt row hrow
    exact beq_eq_false_iff_ne.mpr (hnomatch p hp hpt row hrow)
  have hupd : (db.tables.map fun p =>
      if p.1 == tableName then (p.1, updateTd pkCol pkVal data p.2) else p) =
        db.tables := by
    apply map_self
    intro p hp
    cases hm : (p.1 == tableName) with
    | false => simp [hm]
    | true =>
      have hpt : p.1 = tableName := eq_of_beq hm
      have hrows : updateTd pkCol pkVal data p.2 = p.2 := by
        rw [updateTd]
        rw [map_self _ _ fun row hrow => by simp [hfix p hp hpt row hrow]]
      simp [hm, hrows]
  have hdel : (db.tables.map fun p =>
      if p.1 == tableName then (p.1, deleteTd pkCol pkVal p.2) else p) =
        db.tables := by
    apply map_self
    intro p hp
    cases hm : (p.1 == tableName) with
    | false => simp [hm]
    | true =>
      have hpt : p.1 = tableName := eq_of_beq hm
      have hrows : deleteTd pkCol pkVal p.2 = p.2 := by
        rw [deleteTd]
        rw [filter_self _ _ fun row hrow => by simp [hfix p hp hpt row hrow]]
      simp [hm, hrows]
  have hempty : data.isEmpty = false := by
    cases data with
    | nil => exact absurd rfl hdata
    | cons x xs => rfl
  constructor
  · simp only [updateRowOp, hempty, Bool.false_eq_true, if_false, hfind,
      hcols, hpk, Bool.and_self, if_true, hupd]
  · simp only [deleteRowOp, hfind, hpk, if_true, hdel]

/-- The concrete sandbox of the C9 witness: one `users` table with one
row whose `id` is `1`. -/
def dbWitness : Db :=
  ⟨[("users", ⟨["id", "name"], [[("id", "1")]]⟩)]⟩

/-- Witness for C9: updating and deleting `users` by `id = 2` matches no
row, yet both report plain success and change nothing. -/
theorem update_delete_zero_match_reports_success_witness :
    updateRowOp (some dbWitness) "users" "id" "2" [("name", "x")] =
        (some dbWitness, ⟨true, none⟩) ∧
      deleteRowOp (some dbWitness) "users" "id" "2" =
        (some dbWitness, ⟨true, none⟩) :=
  update_delete_zero_match_reports_success dbWitness "users" "id" "2"
    [("name", "x")] ⟨["id", "name"], [[("id", "1")]]⟩
    (by decide) rfl (by decide) (by decide) (by decide)

/-! ## C10: empty-string default emits no DEFAULT clause -/

/-- C10. The default-presence check is JS truthiness of the raw string,
so a column whose stored default is the empty string produces exactly
the column line of a column with no default at all: no `DEFAULT`
fragment is emitted. -/
theorem columnLine_empty_default_eq_none (i tid nm ty : String)
    (pk nn : Bool) :
    columnLine ⟨i, tid, nm, ty, pk, nn, some ""⟩ =
      columnLine ⟨i, tid, nm, ty, pk, nn, none⟩ :=
  rfl

/-! ## C6: type-lowering classification -/

/-- C6. The embedded `mapToSqliteType` classifies by case-insensitive
substring matching in the fixed priority order of the claim, first match
winning, with text storage as the total fallback (the Lean function is
total by construction, mirroring the source's absence of any error
path). -/
theorem mapToSqliteType_classification (s : String) :
    (jsIncludes (jsToUpper s) "INT" = true →
      mapToSqliteType s = "INTEGER") ∧
    (jsIncludes (jsToUpper s) "INT" = false →
      (jsIncludes (jsToUpper s) "CHAR" || jsIncludes (jsToUpper s) "TEXT" ||
        jsIncludes (jsToUpper s) "UUID" ||
        jsIncludes (jsToUpper s) "VARCHAR") = true →
      mapToSqliteType s = "TEXT") ∧
    (jsIncludes (jsToUpper s) "INT" = false →
      (jsIncludes (jsToUpper s) "CHAR" || jsIncludes (jsToUpper s) "TEXT" ||
        jsIncludes (jsToUpper s) "UUID" ||
        jsIncludes (jsToUpper s) "VARCHAR") = false →
      jsIncludes (jsToUpper s) "BOOL" = true →
      mapToSqliteType s = "INTEGER") ∧
    (jsIncludes (jsToUpper s) "INT" = false →
      (jsIncludes (jsToUpper s) "CHAR" || jsIncludes (jsToUpper s) "TEXT" ||
        jsIncludes (jsToUpper s) "UUID" ||
        jsIncludes (jsToUpper s) "VARCHAR") = false →
      jsIncludes (jsToUpper s) "BOOL" = false →
      (jsIncludes (jsToUpper s) "DATE" ||
        jsIncludes (jsToUpper s) "TIME") = true →
      mapToSqliteType s = "TEXT") ∧
    (jsIncludes (jsToUpper s) "INT" = false →
      (jsIncludes (jsToUpper s) "CHAR" || jsIncludes (jsToUpper s) "TEXT" ||
        jsIncludes (jsToUpper s) "UUID" ||
        jsIncludes (jsToUpper s) "VARCHAR") = false →
      jsIncludes (jsToUpper s) "BOOL" = false →
      (jsIncludes (jsToUpper s) "DATE" ||
        jsIncludes (jsToUpper s) "TIME") = false →
      (jsIncludes (jsToUpper s) "FLOAT" || jsIncludes (jsToUpper s) "REAL" ||
        jsIncludes (jsToUpper s) "DECIMAL" ||
        jsIncludes (jsToUpper s) "DOUBLE") = true →
      mapToSqliteType s = "REAL") ∧
    (jsIncludes (jsToUpper s) "INT" = false →
      (jsIncludes (jsToUpper s) "CHAR" || jsIncludes (jsToUpper s) "TEXT" ||
        jsIncludes (jsToUpper s) "UUID" ||
        jsIncludes (jsToUpper s) "VARCHAR") = false →
      jsIncludes (jsToUpper s) "BOOL" = false →
      (jsIncludes (jsToUpper s) "DATE" ||
        jsIncludes (jsToUpper s) "TIME") = false →
      (jsIncludes (jsToUpper s) "FLOAT" || jsIncludes (jsToUpper s) "REAL" ||
        jsIncludes (jsToUpper s) "DECIMAL" ||
        jsIncludes (jsToUpper s) "DOUBLE") = false →
      mapToSqliteType s = "TEXT") := by
  refine ⟨?_, ?_, ?_, ?_, ?_, ?_⟩ <;>
    · intros
      simp only [mapToSqliteType]
      simp [*]

/-- Witness for C6: the boolean family rule fires on `bool`. -/
theorem mapToSqliteType_classification_witness :
    mapToSqliteType "bool" = "INTEGER" :=
  (mapToSqliteType_classification "bool").2.2.1 (by decide) (by decide)
    (by decide)

/-! ## C7: FK clause resolution -/

/-- C7. The FK section of the synthesized statement is exactly the
relations with this source table, each mapped to its clause precisely
when all three identity lookups resolve, in relation-iteration order;
unresolved relations contribute nothing and never fail the synthesis
(the embedding is a total function). -/
theorem fkLines_eq_resolved_filterMap (table : Table)
    (relationList : List Relation) (allTables : List Table)
    (allColumns : List Column) :
    fkLines table relationList allTables allColumns =
      (relationList.filter fun r => r.fromTableId == table.id).filterMap
        (resolveFk allTables allColumns) := by
  rw [fkLines]
  suffices h : ∀ (l : List Relation) (acc : List String),
      l.foldl (fun acc fk =>
        match allColumns.find? (fun c => c.id == fk.fromColumnId),
            allTables.find? (fun t => t.id == fk.toTableId),
            allColumns.find? (fun c => c.id == fk.toColumnId) with
        | some fromCol, some toTable, some toCol =>
          acc ++ [fkClause fromCol toTable toCol]
        | _, _, _ => acc) acc =
        acc ++ l.filterMap (resolveFk allTables allColumns) by
    simpa using h (relationList.filter fun r => r.fromTableId == table.id) []
  intro l
  induction l with
  | nil => intro acc; simp
  | cons x xs ih =>
    intro acc
    rw [List.foldl_cons, List.filterMap_cons]
    cases h1 : allColumns.find? (fun c => c.id == x.fromColumnId) <;>
      cases h2 : allTables.find? (fun t => t.id == x.toTableId) <;>
        cases h3 : allColumns.find? (fun c => c.id == x.toColumnId) <;>
          simp [resolveFk, h1, h2, h3, ih]

/-! ## C5: identifier interpolation in CRUD statements -/

/-- Scanning a quote-free run followed by a closing quote recovers the
run. -/
theorem takeUntilQuote_append (mid rest : List Char)
    (hmid : ∀ c ∈ mid, c ≠ dquote) :
    takeUntilQuote (mid ++ (dquote :: rest)) = some mid := by
  induction mid with
  | nil => simp [takeUntilQuote]
  | cons c cs ih =>
    have hc : (c == dquote) = false :=
      beq_eq_false_iff_ne.mpr (hmid c (List.mem_cons_self c cs))
    simp [takeUntilQuote, hc,
      ih fun a ha => hmid a (List.mem_cons_of_mem c ha)]

/-- The first double-quoted token of a statement whose prefix is
quote-free is the quote-free identifier that was interpolated. -/
theorem extractQuoted_shape (pre mid rest : List Char)
    (hpre : ∀ c ∈ pre, c ≠ dquote) (hmid : ∀ c ∈ mid, c ≠ dquote) :
    extractQuoted (pre ++ (dquote :: (mid ++ (dquote :: rest)))) = some mid := by
  induction pre with
  | nil =>
    simp only [List.nil_append, extractQuoted, beq_self_eq_true, if_true]
    exact takeUntilQuote_append mid rest hmid
  | cons c cs ih =>
    have hc : (c == dquote) = false :=
      beq_eq_false_iff_ne.mpr (hpre c (List.mem_cons_self c cs))
    simp only [List.cons_append, extractQuoted, hc, Bool.false_eq_true,
      if_false]
    exact ih fun a ha => hpre a (List.mem_cons_of_mem c ha)

/-- Amended C5. The CRUD gateway performs no schema validation and no
escaping of identifiers: it wraps the supplied table name in double
quotes verbatim. For a table name containing no double-quote character
the statement structure is preserved — the storage engine sees exactly
the supplied identifier in table position in the insert, update and
delete texts — but the guarantee is lost for names containing a double
quote (see the counterexample). -/
theorem crud_identifier_quote_free_round_trip (t pk : List Char)
    (ks : List (List Char)) (ht : ∀ c ∈ t, c ≠ dquote) :
    extractQuoted (insertSqlChars t ks) = some t ∧
      extractQuoted (updateSqlChars t pk ks) = some t ∧
      extractQuoted (deleteSqlChars t pk) = some t := by
  have hpre1 : ∀ c ∈ "INSERT INTO ".toList, c ≠ dquote := by decide
  have hpre2 : ∀ c ∈ "UPDATE ".toList, c ≠ dquote := by decide
  have hpre3 : ∀ c ∈ "DELETE FROM ".toList, c ≠ dquote := by decide
  refine ⟨?_, ?_, ?_⟩
  · rw [show insertSqlChars t ks =
        "INSERT INTO ".toList ++ (dquote :: (t ++ (dquote ::
          (" (".toList ++ joinCommaChars (ks.map quoteIdentChars) ++
            ") VALUES (".toList ++ joinCommaChars (ks.map fun _ => ['?']) ++
            [')'])))) from by
      simp [insertSqlChars, quoteIdentChars, List.append_assoc]]
    exact extractQuoted_shape _ _ _ hpre1 ht
  · rw [show updateSqlChars t pk ks =
        "UPDATE ".toList ++ (dquote :: (t ++ (dquote ::
          (" SET ".toList ++
            joinCommaChars (ks.map fun k => quoteIdentChars k ++ " = ?".toList) ++
            " WHERE ".toList ++ quoteIdentChars pk ++ " = ?".toList)))) from by
      simp [updateSqlChars, quoteIdentChars, List.append_assoc]]
    exact extractQuoted_shape _ _ _ hpre2 ht
  · rw [show deleteSqlChars t pk =
        "DELETE FROM ".toList ++ (dquote :: (t ++ (dquote ::
          (" WHERE ".toList ++ quoteIdentChars pk ++ " = ?".toList)))) from by
      simp [deleteSqlChars, quoteIdentChars, List.append_assoc]]
    exact extractQuoted_shape _ _ _ hpre3 ht

/-- Witness for amended C5 at the quote-free identifiers `users`/`id`. -/
theorem crud_identifier_quote_free_round_trip_witness :
    extractQuoted (insertSqlChars "users".toList ["name".toList]) =
        some "users".toList ∧
      extractQuoted (updateSqlChars "users".toList "id".toList ["name".toList]) =
        some "users".toList ∧
      extractQuoted (deleteSqlChars "users".toList "id".toList) =
        some "users".toList :=
  crud_identifier_quote_free_round_trip "users".toList "id".toList
    ["name".toList] (by decide)

/-- Counterexample to C5 as stated: no validation or syntactic
restriction exists — a supplied table name containing a double quote
changes the statement structure, so the engine sees the identifier `a`
instead of the supplied name. -/
theorem crud_identifier_injection_counterexample :
    extractQuoted (insertSqlChars ['a', dquote, 'b'] [['x']]) ≠
        some ['a', dquote, 'b'] ∧
      extractQuoted (insertSqlChars ['a', dquote, 'b'] [['x']]) = some ['a'] :=
  ⟨by decide, by decide⟩
